import Mathlib

/-!
Shallow embedding of the n3 repository's digital-signature subsystem.

Sources embedded:
- `src/N3/lib/db/models/crypto/digitalSignature.js` (class `DigitalSignature`)
- `src/unnamed/part_001` (mongoose `Signature` schema: methods `verify`,
  `revoke`, `verifyTimestamp`, `calculateDocumentHash`, and the
  `pre('save')` audit-trail middleware)
- `src/unnamed/part_000` (mongoose `Expense` schema: the fields consumed by
  `calculateDocumentHash`)

Cryptographic primitives (SHA-256, RSA sign/verify, base64/JSON transport
of the timestamp token) are modelled as explicit parameters; the JavaScript
control flow around them is embedded faithfully.  JavaScript numbers are
modelled as `Int` (no claim depends on floating-point behaviour), dates as
integers (milliseconds) or ISO strings where the code only ever compares or
concatenates them.
-/

/-! ## JavaScript values and `JSON.stringify` with an array replacer

`canonicalizeDocument` and the document serialization in
`signDocument`/`verifySignature`/`calculateDocumentHash` all call
`JSON.stringify(value, keyList)` where `keyList` is an array of property
names.  Per ECMA-262, such a *PropertyList* is used as the key list at
EVERY object nesting level: only listed keys are serialized, in the order
of the list.  Arrays serialize all their elements.  We model JS values with
mutual inductives so all functions are structurally recursive. -/

mutual

inductive JSVal : Type where
  | str : String → JSVal
  | num : Int → JSVal
  | boolean : Bool → JSVal
  | null : JSVal
  | obj : JSFields → JSVal
  | arr : JSArr → JSVal

inductive JSFields : Type where
  | nil : JSFields
  | cons : String → JSVal → JSFields → JSFields

inductive JSArr : Type where
  | nil : JSArr
  | cons : JSVal → JSArr → JSArr

end

/-- Hex digit character (lowercase), as used in `\u00XX` escapes. -/
def hexDigit (n : Nat) : Char :=
  if n < 10 then Char.ofNat (48 + n) else Char.ofNat (87 + n)

/-- JSON string escaping as performed by `JSON.stringify` on one character:
quote and backslash are escaped, the control characters b/t/n/f/r get their
short escapes, remaining control characters below 0x20 become `\u00XX`. -/
def escapeChar (c : Char) : String :=
  if c.toNat = 34 then "\\\""
  else if c.toNat = 92 then "\\\\"
  else if c.toNat = 8 then "\\b"
  else if c.toNat = 12 then "\\f"
  else if c.toNat = 10 then "\\n"
  else if c.toNat = 13 then "\\r"
  else if c.toNat = 9 then "\\t"
  else if c.toNat < 32 then
    "\\u00" ++ String.singleton (hexDigit (c.toNat / 16)) ++
      String.singleton (hexDigit (c.toNat % 16))
  else String.singleton c

/-- A JSON string literal: `"` + escaped characters + `"`. -/
def quoteJSON (s : String) : String :=
  "\"" ++ String.join (s.toList.map escapeChar) ++ "\""

/-- First-match association-list lookup (JS property lookup; JS objects have
unique keys, so first match is the match). -/
def lookupAssoc : List (String × String) → String → Option String
  | [], _ => none
  | (k, v) :: rest, key => if k = key then some v else lookupAssoc rest key

/-- Given the replacer key list `K` and the (already serialized) fields of an
object, produce the member strings in the order of `K`, skipping keys the
object does not have — exactly ECMA-262 `SerializeJSONObject` with a
PropertyList. -/
def orderParts (K : List String) (assoc : List (String × String)) : List String :=
  K.filterMap (fun k => (lookupAssoc assoc k).map (fun s => quoteJSON k ++ ":" ++ s))

mutual

/-- `JSON.stringify(v, K)` where `K` is an array replacer (PropertyList). -/
def serializeJSON : List String → JSVal → String
  | _, .str s => quoteJSON s
  | _, .num n => toString n
  | _, .boolean b => if b then "true" else "false"
  | _, .null => "null"
  | K, .obj fields =>
      "\x7b" ++ String.intercalate "," (orderParts K (serializeFields K fields)) ++ "\x7d"
  | K, .arr elems =>
      "[" ++ String.intercalate "," (serializeElems K elems) ++ "]"
termination_by structural _ v => v

/-- Serialize every field value of an object (selection/ordering by the
PropertyList happens afterwards in `orderParts`). -/
def serializeFields : List String → JSFields → List (String × String)
  | _, .nil => []
  | K, .cons k v rest => (k, serializeJSON K v) :: serializeFields K rest
termination_by structural _ v => v

/-- Serialize the elements of an array (the PropertyList does not filter
array elements, but it does apply inside them). -/
def serializeElems : List String → JSArr → List String
  | _, .nil => []
  | K, .cons v rest => serializeJSON K v :: serializeElems K rest
termination_by structural _ v => v

end

/-- `Object.keys`: the object's keys in insertion order. -/
def jsKeys : JSFields → List String
  | .nil => []
  | .cons k _ rest => k :: jsKeys rest

/-- Property lookup on an object. -/
def lookupField : JSFields → String → Option JSVal
  | .nil, _ => none
  | .cons k v rest, key => if k = key then some v else lookupField rest key

/-- `delete obj[k]` (removes every pair with that key; JS objects have unique
keys, so this is the single property). -/
def eraseKey (key : String) : JSFields → JSFields
  | .nil => .nil
  | .cons k v rest =>
      if k = key then eraseKey key rest else .cons k v (eraseKey key rest)

/-- `obj[k] = v` on an existing key: replaces the value, keeps key order. -/
def setValue (key : String) (newV : JSVal) : JSFields → JSFields
  | .nil => .nil
  | .cons k v rest =>
      if k = key then .cons k newV (setValue key newV rest)
      else .cons k v (setValue key newV rest)

/-- View an object's fields as a Lean association list. -/
def fieldsToList : JSFields → List (String × JSVal)
  | .nil => []
  | .cons k v rest => (k, v) :: fieldsToList rest

/-- Lexicographic ≤ on character lists by code point (for the ASCII keys of
this code base this agrees with the UTF-16 code-unit order used by
JavaScript's default `Array.prototype.sort()` comparator). -/
def charListLe : List Char → List Char → Bool
  | [], _ => true
  | _ :: _, [] => false
  | a :: as, b :: bs =>
      if a.toNat < b.toNat then true
      else if b.toNat < a.toNat then false
      else charListLe as bs

/-- Lexicographic ≤ on strings by code point. -/
def strLe (a b : String) : Bool := charListLe a.data b.data

/-- `strLe` as a relation, for use with Mathlib's sorting lemmas. -/
def strLeRel (a b : String) : Prop := strLe a b = true

instance : DecidableRel strLeRel :=
  fun a b => inferInstanceAs (Decidable (strLe a b = true))

/-- Unfolding of `charListLe` on two cons cells. -/
theorem charListLe_cons (a b : Char) (as bs : List Char) :
    charListLe (a :: as) (b :: bs) = true ↔
      a.toNat < b.toNat ∨ (a.toNat = b.toNat ∧ charListLe as bs = true) := by
  simp only [charListLe]
  by_cases h1 : a.toNat < b.toNat
  · simp [h1]
  · by_cases h2 : b.toNat < a.toNat
    · have h3 : ¬ a.toNat = b.toNat := by omega
      simp [h1, h2, h3]
    · have he : a.toNat = b.toNat := by omega
      simp [h1, h2, he]

theorem charListLe_total : ∀ as bs, charListLe as bs = true ∨ charListLe bs as = true
  | [], _ => Or.inl rfl
  | _ :: _, [] => Or.inr rfl
  | a :: as, b :: bs => by
      rcases Nat.lt_trichotomy a.toNat b.toNat with h | h | h
      · exact Or.inl ((charListLe_cons ..).mpr (Or.inl h))
      · rcases charListLe_total as bs with ih | ih
        · exact Or.inl ((charListLe_cons ..).mpr (Or.inr ⟨h, ih⟩))
        · exact Or.inr ((charListLe_cons ..).mpr (Or.inr ⟨h.symm, ih⟩))
      · exact Or.inr ((charListLe_cons ..).mpr (Or.inl h))

theorem charListLe_trans : ∀ as bs cs, charListLe as bs = true →
    charListLe bs cs = true → charListLe as cs = true
  | [], _, _, _, _ => rfl
  | _ :: _, [], _, h1, _ => by simp [charListLe] at h1
  | _ :: _, _ :: _, [], _, h2 => by simp [charListLe] at h2
  | a :: as, b :: bs, c :: cs, h1, h2 => by
      rw [charListLe_cons] at h1 h2 ⊢
      rcases h1 with h1 | ⟨h1e, h1r⟩ <;> rcases h2 with h2 | ⟨h2e, h2r⟩
      · exact Or.inl (h1.trans h2)
      · exact Or.inl (by omega)
      · exact Or.inl (by omega)
      · exact Or.inr ⟨by omega, charListLe_trans as bs cs h1r h2r⟩

theorem charListLe_antisymm : ∀ as bs, charListLe as bs = true →
    charListLe bs as = true → as = bs
  | [], [], _, _ => rfl
  | [], _ :: _, _, h2 => by simp [charListLe] at h2
  | _ :: _, [], h1, _ => by simp [charListLe] at h1
  | a :: as, b :: bs, h1, h2 => by
      rw [charListLe_cons] at h1 h2
      have hab : a.toNat = b.toNat := by
        rcases h1 with h | ⟨h, _⟩ <;> rcases h2 with h2 | ⟨h2, _⟩ <;> omega
      have heq : a = b := Char.eq_of_val_eq (by
        have h2 := hab
        unfold Char.toNat at h2
        exact UInt32.toNat.inj h2)
      rcases h1 with h | ⟨_, h1r⟩
      · exact absurd h (by omega)
      rcases h2 with h2 | ⟨_, h2r⟩
      · exact absurd h2 (by omega)
      rw [heq, charListLe_antisymm as bs h1r h2r]

instance : IsTotal String strLeRel := ⟨fun a b => charListLe_total a.data b.data⟩

instance : IsTrans String strLeRel := ⟨fun a b c => charListLe_trans a.data b.data c.data⟩

instance : IsAntisymm String strLeRel :=
  ⟨fun a b h1 h2 => by
    have h3 := charListLe_antisymm a.data b.data h1 h2
    cases a; cases b; simp only at h3; rw [h3]⟩

/-- `Array.prototype.sort()` on a key list: ascending lexicographic sort. -/
def sortStrings (l : List String) : List String :=
  List.insertionSort strLeRel l

/-- Sorting two permuted key lists yields the same list. -/
theorem sortStrings_eq_of_perm {l₁ l₂ : List String} (h : List.Perm l₁ l₂) :
    sortStrings l₁ = sortStrings l₂ :=
  List.eq_of_perm_of_sorted
    (((List.perm_insertionSort strLeRel l₁).trans h).trans
      (List.perm_insertionSort strLeRel l₂).symm)
    (List.sorted_insertionSort strLeRel l₁)
    (List.sorted_insertionSort strLeRel l₂)

/-- Membership is preserved by sorting. -/
theorem mem_sortStrings {k : String} {l : List String} :
    k ∈ sortStrings l ↔ k ∈ l :=
  (List.perm_insertionSort strLeRel l).mem_iff

/-! ## `DigitalSignature.canonicalizeDocument` and document canonicalization

`digitalSignature.js` lines 274–285: copy the document, `delete` the six
non-signable fields, then `JSON.stringify(clean, Object.keys(clean).sort())`.

`signDocument` (lines 52–54), `verifySignature` (lines 115–117) and
`createDocumentHash` (lines 209–211) use the dual-shape dispatch
`typeof document === 'string' ? document : JSON.stringify(document,
Object.keys(document).sort())`. -/

/-- The non-signable fields stripped by `canonicalizeDocument`
(`digitalSignature.js` line 276–278). -/
def excludeFields : List String :=
  ["_id", "__v", "createdAt", "updatedAt", "signature", "history"]

/-- `cleanDocument`: the spread copy with the excluded fields deleted. -/
def cleanDoc (m : JSFields) : JSFields :=
  excludeFields.foldl (fun acc f => eraseKey f acc) m

/-- `DigitalSignature.canonicalizeDocument` (lines 274–285). -/
def canonicalizeDocument (m : JSFields) : String :=
  serializeJSON (sortStrings (jsKeys (cleanDoc m))) (JSVal.obj (cleanDoc m))

/-- A document as accepted by the signing/verification entry points: raw
text or a structured field mapping (`typeof document === 'string'`
dispatch). -/
inductive JSDoc : Type where
  | raw : String → JSDoc
  | structured : JSFields → JSDoc

/-- The document-to-string conversion of `signDocument` (lines 52–54) /
`verifySignature` (lines 115–117): a string passes through unchanged, an
object is `JSON.stringify(document, Object.keys(document).sort())`. -/
def documentToString : JSDoc → String
  | .raw s => s
  | .structured m => serializeJSON (sortStrings (jsKeys m)) (JSVal.obj m)

/-- The repository's document canonicalization on the dual shape: raw text
is its own canonical form (the `typeof` dispatch above), a structured
document canonicalizes via `canonicalizeDocument`. -/
def canonicalize : JSDoc → String
  | .raw s => s
  | .structured m => canonicalizeDocument m

/-! ## Lemmas about the object model and the serializer -/

theorem jsKeys_fieldsToList : ∀ m : JSFields, jsKeys m = (fieldsToList m).map Prod.fst
  | .nil => rfl
  | .cons k v rest => by simp [jsKeys, fieldsToList, jsKeys_fieldsToList rest]

theorem lookup_mem : ∀ (m : JSFields) {k : String} {v : JSVal},
    lookupField m k = some v → (k, v) ∈ fieldsToList m
  | .nil, k, v, h => by simp [lookupField] at h
  | .cons k' v' rest, k, v, h => by
      simp only [lookupField] at h
      by_cases hk : k' = k
      · simp [hk] at h
        simp [fieldsToList, hk, h]
      · simp [hk] at h
        simp [fieldsToList, lookup_mem rest h]

theorem lookup_of_mem_nodup : ∀ (m : JSFields) {k : String} {v : JSVal},
    (jsKeys m).Nodup → (k, v) ∈ fieldsToList m → lookupField m k = some v
  | .nil, k, v, _, h => by simp [fieldsToList] at h
  | .cons k' v' rest, k, v, hnd, h => by
      simp only [fieldsToList, List.mem_cons] at h
      simp only [jsKeys, List.nodup_cons] at hnd
      rcases h with h | h
      · have h1 : k' = k := (Prod.mk.injEq .. ▸ h.symm).1
        have h2 : v' = v := (Prod.mk.injEq .. ▸ h.symm).2
        simp [lookupField, h1, h2]
      · have hk : k' ≠ k := by
          intro he
          apply hnd.1
          rw [jsKeys_fieldsToList, he]
          exact List.mem_map_of_mem Prod.fst h
        simp [lookupField, hk, lookup_of_mem_nodup rest hnd.2 h]

theorem lookup_eq_none_iff : ∀ (m : JSFields) {k : String},
    lookupField m k = none ↔ k ∉ jsKeys m
  | .nil, k => by simp [lookupField, jsKeys]
  | .cons k' v' rest, k => by
      by_cases hk : k' = k
      · simp [lookupField, jsKeys, hk]
      · simp [lookupField, jsKeys, hk, lookup_eq_none_iff rest, Ne.symm hk]

theorem lookupField_eq_of_perm {m₁ m₂ : JSFields}
    (hnd : (jsKeys m₁).Nodup)
    (hp : List.Perm (fieldsToList m₁) (fieldsToList m₂)) (k : String) :
    lookupField m₁ k = lookupField m₂ k := by
  have hkp : List.Perm (jsKeys m₁) (jsKeys m₂) := by
    rw [jsKeys_fieldsToList, jsKeys_fieldsToList]
    exact hp.map Prod.fst
  have hnd₂ : (jsKeys m₂).Nodup := hkp.nodup_iff.mp hnd
  cases hl : lookupField m₁ k with
  | none =>
      have h1 : k ∉ jsKeys m₁ := (lookup_eq_none_iff m₁).mp hl
      have h2 : k ∉ jsKeys m₂ := fun hin => h1 (hkp.mem_iff.mpr hin)
      exact ((lookup_eq_none_iff m₂).mpr h2).symm
  | some v =>
      have h1 := lookup_mem m₁ hl
      have h2 : (k, v) ∈ fieldsToList m₂ := hp.subset h1
      exact (lookup_of_mem_nodup m₂ hnd₂ h2).symm

theorem lookupAssoc_serializeFields (K : List String) :
    ∀ (m : JSFields) (k : String),
    lookupAssoc (serializeFields K m) k = (lookupField m k).map (serializeJSON K)
  | .nil, k => rfl
  | .cons k' v rest, k => by
      by_cases hk : k' = k
      · simp [serializeFields, lookupAssoc, lookupField, hk]
      · simp [serializeFields, lookupAssoc, lookupField, hk,
          lookupAssoc_serializeFields K rest]

theorem orderParts_serializeFields (K : List String) (m : JSFields) :
    orderParts K (serializeFields K m) =
      K.filterMap (fun k =>
        ((lookupField m k).map (serializeJSON K)).map (fun s => quoteJSON k ++ ":" ++ s)) := by
  unfold orderParts
  apply List.filterMap_congr
  intro k _
  rw [lookupAssoc_serializeFields]

/-- The serializer consults an object only through property lookups at the
keys of the PropertyList: pointwise-equal (serialized) lookups give equal
output. -/
theorem serializeJSON_obj_congr {K : List String} {m₁ m₂ : JSFields}
    (h : ∀ k ∈ K, (lookupField m₁ k).map (serializeJSON K)
                = (lookupField m₂ k).map (serializeJSON K)) :
    serializeJSON K (.obj m₁) = serializeJSON K (.obj m₂) := by
  have horder : orderParts K (serializeFields K m₁) = orderParts K (serializeFields K m₂) := by
    rw [orderParts_serializeFields, orderParts_serializeFields]
    apply List.filterMap_congr
    intro k hk
    rw [h k hk]
  simp only [serializeJSON, horder]

theorem fieldsToList_eraseKey (f : String) :
    ∀ m : JSFields,
    fieldsToList (eraseKey f m) = (fieldsToList m).filter (fun p => decide (p.1 ≠ f))
  | .nil => rfl
  | .cons k v rest => by
      by_cases hk : k = f
      · simp [eraseKey, fieldsToList, hk, fieldsToList_eraseKey f rest]
      · simp [eraseKey, fieldsToList, hk, fieldsToList_eraseKey f rest]

theorem lookup_eraseKey (f : String) :
    ∀ (m : JSFields) (k : String),
    lookupField (eraseKey f m) k = if k = f then none else lookupField m k
  | .nil, k => by simp [eraseKey, lookupField]
  | .cons k' v rest, k => by
      by_cases hk' : k' = f
      · by_cases hk : k = f
        · simp [eraseKey, lookupField, hk', hk, lookup_eraseKey f rest]
        · have hfk : ¬ f = k := fun he => hk he.symm
          simp [eraseKey, lookupField, hk', hk, hfk, lookup_eraseKey f rest]
      · by_cases hkk : k' = k
        · have hne : ¬ k = f := by rw [← hkk]; exact hk'
          simp [eraseKey, lookupField, hk', hkk, hne]
        · simp [eraseKey, lookupField, hk', hkk, lookup_eraseKey f rest]

theorem fieldsToList_foldlErase :
    ∀ (fs : List String) (m : JSFields),
    fieldsToList (fs.foldl (fun acc g => eraseKey g acc) m)
      = (fieldsToList m).filter (fun p => decide (p.1 ∉ fs))
  | [], m => by simp
  | g :: fs, m => by
      simp only [List.foldl_cons]
      rw [fieldsToList_foldlErase fs (eraseKey g m), fieldsToList_eraseKey,
        List.filter_filter]
      apply List.filter_congr
      intro p _
      by_cases h1 : p.1 = g <;> by_cases h2 : p.1 ∈ fs <;> simp [h1, h2]

theorem lookup_foldlErase :
    ∀ (fs : List String) (m : JSFields) (k : String),
    lookupField (fs.foldl (fun acc g => eraseKey g acc) m) k
      = if k ∈ fs then none else lookupField m k
  | [], m, k => by simp
  | g :: fs, m, k => by
      simp only [List.foldl_cons]
      rw [lookup_foldlErase fs (eraseKey g m) k, lookup_eraseKey]
      by_cases h1 : k ∈ fs <;> by_cases h2 : k = g <;> simp [h1, h2]

theorem foldlErase_cons_of_mem :
    ∀ (fs : List String) (f : String) (v : JSVal) (m : JSFields), f ∈ fs →
    fs.foldl (fun acc g => eraseKey g acc) (.cons f v m)
      = fs.foldl (fun acc g => eraseKey g acc) m
  | [], f, v, m, h => by simp at h
  | g :: fs, f, v, m, h => by
      simp only [List.foldl_cons]
      by_cases hg : f = g
      · rw [show eraseKey g (JSFields.cons f v m) = eraseKey g m by
          simp [eraseKey, hg]]
      · have hf : f ∈ fs := by
          rcases List.mem_cons.mp h with h | h
          · exact absurd h hg
          · exact h
        rw [show eraseKey g (JSFields.cons f v m)
              = JSFields.cons f v (eraseKey g m) by
            simp [eraseKey, fun he : f = g => hg he]]
        exact foldlErase_cons_of_mem fs f v (eraseKey g m) hf

theorem cleanDoc_cons_of_mem {f : String} (v : JSVal) (m : JSFields)
    (h : f ∈ excludeFields) : cleanDoc (.cons f v m) = cleanDoc m :=
  foldlErase_cons_of_mem excludeFields f v m h

theorem fieldsToList_cleanDoc (m : JSFields) :
    fieldsToList (cleanDoc m)
      = (fieldsToList m).filter (fun p => decide (p.1 ∉ excludeFields)) :=
  fieldsToList_foldlErase excludeFields m

theorem lookup_cleanDoc (m : JSFields) (k : String) :
    lookupField (cleanDoc m) k
      = if k ∈ excludeFields then none else lookupField m k :=
  lookup_foldlErase excludeFields m k

theorem jsKeys_setValue (key : String) (newV : JSVal) :
    ∀ m : JSFields, jsKeys (setValue key newV m) = jsKeys m
  | .nil => rfl
  | .cons k v rest => by
      by_cases hk : k = key <;>
        simp [setValue, jsKeys, hk, jsKeys_setValue key newV rest]

theorem lookup_setValue (key : String) (newV : JSVal) :
    ∀ (m : JSFields) (k : String),
    lookupField (setValue key newV m) k
      = if k = key then (lookupField m key).map (fun _ => newV) else lookupField m k
  | .nil, k => by simp [setValue, lookupField]
  | .cons k' v rest, k => by
      by_cases hk' : k' = key
      · by_cases hk : k = key
        · simp [setValue, lookupField, hk', hk]
        · have hne : ¬ k' = k := by rw [hk']; exact fun he => hk he.symm
          have hkey : ¬ key = k := fun he => hk he.symm
          simp [setValue, lookupField, hk', hk, hne, hkey, lookup_setValue key newV rest]
      · by_cases hkk : k' = k
        · have hne : ¬ k = key := by rw [← hkk]; exact hk'
          simp [setValue, lookupField, hk', hkk, hne]
        · simp [setValue, lookupField, hk', hkk, lookup_setValue key newV rest]

theorem eraseKey_setValue_eq (key : String) (newV : JSVal) :
    ∀ m : JSFields, eraseKey key (setValue key newV m) = eraseKey key m
  | .nil => rfl
  | .cons k v rest => by
      by_cases hk : k = key
      · simp [setValue, eraseKey, hk, eraseKey_setValue_eq key newV rest]
      · simp [setValue, eraseKey, hk, eraseKey_setValue_eq key newV rest]

theorem eraseKey_setValue_ne {f key : String} (hne : f ≠ key) (newV : JSVal) :
    ∀ m : JSFields,
    eraseKey f (setValue key newV m) = setValue key newV (eraseKey f m)
  | .nil => rfl
  | .cons k v rest => by
      have hkey : ¬ key = f := fun he => hne he.symm
      by_cases hk : k = key
      · have hkf : ¬ k = f := by rw [hk]; exact fun he => hne he.symm
        simp [setValue, eraseKey, hk, hkf, hne, hkey, eraseKey_setValue_ne hne newV rest]
      · by_cases hkf : k = f
        · simp [setValue, eraseKey, hk, hkf, hne, hkey, eraseKey_setValue_ne hne newV rest]
        · simp [setValue, eraseKey, hk, hkf, hne, hkey, eraseKey_setValue_ne hne newV rest]

theorem foldlErase_setValue :
    ∀ (fs : List String) (key : String) (newV : JSVal) (m : JSFields),
    fs.foldl (fun acc g => eraseKey g acc) (setValue key newV m)
      = if key ∈ fs then fs.foldl (fun acc g => eraseKey g acc) m
        else setValue key newV (fs.foldl (fun acc g => eraseKey g acc) m)
  | [], key, newV, m => by simp
  | g :: fs, key, newV, m => by
      simp only [List.foldl_cons]
      by_cases hg : g = key
      · subst hg
        rw [eraseKey_setValue_eq]
        rw [if_pos (List.mem_cons_self _ _)]
      · rw [eraseKey_setValue_ne hg, foldlErase_setValue fs key newV (eraseKey g m)]
        by_cases h2 : key ∈ fs
        · rw [if_pos h2, if_pos (List.mem_cons.mpr (Or.inr h2))]
        · rw [if_neg h2, if_neg (fun hc => by
            rcases List.mem_cons.mp hc with he | hm
            · exact hg he.symm
            · exact h2 hm)]

theorem cleanDoc_setValue (key : String) (newV : JSVal) (m : JSFields) :
    cleanDoc (setValue key newV m)
      = if key ∈ excludeFields then cleanDoc m
        else setValue key newV (cleanDoc m) :=
  foldlErase_setValue excludeFields key newV m

theorem jsKeys_cleanDoc_nodup {m : JSFields} (hnd : (jsKeys m).Nodup) :
    (jsKeys (cleanDoc m)).Nodup := by
  rw [jsKeys_fieldsToList, fieldsToList_cleanDoc]
  rw [jsKeys_fieldsToList] at hnd
  exact hnd.sublist ((List.filter_sublist _).map Prod.fst)

/-! ## Claim theorems: canonicalization (C6, C7, C10) -/

/-- Claim C6: `canonicalizeDocument` (digitalSignature.js 274–285) is
independent of the values and of the presence of the excluded fields
`_id`, `__v`, `createdAt`, `updatedAt`, `signature`, `history`
(first conjunct); it serializes the cleaned document against the sorted
list of its remaining keys — a key list that is sorted and is a
permutation of the remaining keys (second conjunct); and any two documents
with identical signable content but different field-insertion order
(permutations of each other as field lists, with unique keys) canonicalize
to the identical string (third conjunct). -/
theorem claim_C6_canonicalization :
    (∀ (m : JSFields) (f : String) (v : JSVal), f ∈ excludeFields →
        canonicalizeDocument (.cons f v m) = canonicalizeDocument m)
    ∧ (∀ m : JSFields,
        canonicalizeDocument m
            = serializeJSON (sortStrings (jsKeys (cleanDoc m))) (.obj (cleanDoc m))
          ∧ List.Sorted strLeRel (sortStrings (jsKeys (cleanDoc m)))
          ∧ List.Perm (sortStrings (jsKeys (cleanDoc m))) (jsKeys (cleanDoc m)))
    ∧ (∀ m₁ m₂ : JSFields, (jsKeys m₁).Nodup →
        List.Perm (fieldsToList m₁) (fieldsToList m₂) →
        canonicalizeDocument m₁ = canonicalizeDocument m₂) := by
  refine ⟨?_, ?_, ?_⟩
  · intro m f v hf
    unfold canonicalizeDocument
    rw [cleanDoc_cons_of_mem v m hf]
  · intro m
    exact ⟨rfl, List.sorted_insertionSort strLeRel _,
      List.perm_insertionSort strLeRel _⟩
  · intro m₁ m₂ hnd hp
    have hclean : List.Perm (fieldsToList (cleanDoc m₁)) (fieldsToList (cleanDoc m₂)) := by
      rw [fieldsToList_cleanDoc, fieldsToList_cleanDoc]
      exact hp.filter _
    have hkeys : List.Perm (jsKeys (cleanDoc m₁)) (jsKeys (cleanDoc m₂)) := by
      rw [jsKeys_fieldsToList, jsKeys_fieldsToList]
      exact hclean.map Prod.fst
    have hK : sortStrings (jsKeys (cleanDoc m₁)) = sortStrings (jsKeys (cleanDoc m₂)) :=
      sortStrings_eq_of_perm hkeys
    have hnd₁ : (jsKeys (cleanDoc m₁)).Nodup := jsKeys_cleanDoc_nodup hnd
    unfold canonicalizeDocument
    rw [hK]
    apply serializeJSON_obj_congr
    intro k _
    rw [lookupField_eq_of_perm hnd₁ hclean k]

/-- Witness for C6: discharges the hypotheses on concrete inputs — a
document with an extra `_id` field canonicalizes like the document without
it, and a two-field document canonicalizes identically to its
field-swapped permutation. -/
theorem claim_C6_witness :
    canonicalizeDocument
        (.cons "_id" (.str "x")
          (.cons "title" (.str "Flight") (.cons "amount" (.num 120) .nil)))
      = canonicalizeDocument
        (.cons "title" (.str "Flight") (.cons "amount" (.num 120) .nil))
    ∧ canonicalizeDocument
        (.cons "title" (.str "Flight") (.cons "amount" (.num 120) .nil))
      = canonicalizeDocument
        (.cons "amount" (.num 120) (.cons "title" (.str "Flight") .nil)) := by
  refine ⟨claim_C6_canonicalization.1 _ "_id" (.str "x") (by decide),
    claim_C6_canonicalization.2.2 _ _ (by decide) ?_⟩
  exact List.Perm.swap ("amount", JSVal.num 120) ("title", JSVal.str "Flight") []

/-- Claim C7: canonicalization is idempotent.  A raw-text document is its
own canonical form (the `typeof document === 'string'` dispatch at
digitalSignature.js lines 52–54 / 115–117 / 209–211), and a structured
document canonicalizes via `canonicalizeDocument` (lines 274–285) to a
string; canonicalizing that string again returns it unchanged. -/
theorem claim_C7_canonicalize_idempotent (D : JSDoc) :
    canonicalize (.raw (canonicalize D)) = canonicalize D := rfl

/-- Claim C10: the sorted top-level key list of the cleaned document is
passed as the `JSON.stringify` replacer, so it acts as a property
whitelist at every nesting depth: erasing, inside a nested object value, a
key that is not among the document's (cleaned) top-level keys does not
change the canonical string at all — such nested keys are silently
omitted from the canonical string and hence from the signed hash. -/
theorem claim_C10_nested_whitelist (m : JSFields) (kTop kN : String)
    (inner : JSFields)
    (hTop : lookupField m kTop = some (.obj inner))
    (hN : kN ∉ jsKeys (cleanDoc m)) :
    canonicalizeDocument (setValue kTop (.obj (eraseKey kN inner)) m)
      = canonicalizeDocument m := by
  by_cases hex : kTop ∈ excludeFields
  · unfold canonicalizeDocument
    rw [cleanDoc_setValue, if_pos hex]
  · unfold canonicalizeDocument
    rw [cleanDoc_setValue, if_neg hex, jsKeys_setValue]
    apply serializeJSON_obj_congr
    intro k hk
    rw [lookup_setValue]
    by_cases hkt : k = kTop
    · subst hkt
      rw [if_pos rfl, lookup_cleanDoc, if_neg hex, hTop]
      show some (serializeJSON _ (JSVal.obj (eraseKey kN inner)))
        = some (serializeJSON _ (JSVal.obj inner))
      congr 1
      apply serializeJSON_obj_congr
      intro j hj
      have hjk : j ≠ kN := by
        intro he
        exact hN (he ▸ mem_sortStrings.mp hj)
      rw [lookup_eraseKey, if_neg hjk]
    · rw [if_neg hkt]

/-- Witness for C10: in `⦃data: ⦃secret: 1⦄, title: "t"⦄`, the nested key
`secret` is not a top-level key, so erasing it inside `data` leaves the
canonical string unchanged. -/
theorem claim_C10_witness :
    canonicalizeDocument
        (setValue "data"
          (.obj (eraseKey "secret" (.cons "secret" (.num 1) .nil)))
          (.cons "data" (.obj (.cons "secret" (.num 1) .nil))
            (.cons "title" (.str "t") .nil)))
      = canonicalizeDocument
          (.cons "data" (.obj (.cons "secret" (.num 1) .nil))
            (.cons "title" (.str "t") .nil)) :=
  claim_C10_nested_whitelist _ "data" "secret" _ rfl (by decide)

/-! ## `DigitalSignature` signing and verification (digitalSignature.js)

The RSA primitives (`crypto.createSign`/`createVerify`/`createPublicKey`)
and the SHA-256 digest are modelled as explicit parameters; every
JavaScript `throw` of these primitives is an `Except.error`.  The envelope
`metadata` object (`signatureSize`, `encoding`, caller metadata) is not
consumed by `verifySignature` and is not modelled. -/

/-- Outcomes of the RSA primitives used by `signDocument` /
`verifySignature`: `sign alg privateKey data`, `extractPublicKey
privateKey`, and `verify alg publicKey signature data` (signature in
base64).  `Except.error` models a thrown exception. -/
structure RSAOps where
  sign : String → String → String → Except String String
  extractPublicKey : String → Except String String
  verify : String → String → String → String → Except String Bool

/-- The fields of the signature envelope consumed by verification
(digitalSignature.js lines 75–86). -/
structure SignatureData where
  digitalSignature : String
  documentHash : String
  algorithm : String
  timestamp : String
  signerPublicKey : String
deriving DecidableEq

/-- Return value of `signDocument` (lines 88–92). -/
structure SignResult where
  success : Bool
  signature : SignatureData
  documentHash : String
deriving DecidableEq

/-- `DigitalSignature.extractPublicKeyFromPrivate` (lines 191–201):
wraps a primitive failure in its own message. -/
def extractPublicKeyFromPrivate (rsa : RSAOps) (privateKey : String) :
    Except String String :=
  match rsa.extractPublicKey privateKey with
  | .ok pub => .ok pub
  | .error e => .error ("Erro ao extrair chave pública: " ++ e)

/-- `DigitalSignature.signDocument` (lines 49–97): canonical string via the
`typeof` dispatch, SHA-256 hex digest `H`, RSA signature over the digest
with algorithm string `"sha256WithRSA"`, public key derived from the
private key; failures are rethrown with a wrapping message. -/
def signDocument (H : String → String) (rsa : RSAOps) (document : JSDoc)
    (privateKey : String) (nowIso : String) : Except String SignResult :=
  let documentString := documentToString document
  let documentHash := H documentString
  match rsa.sign "sha256WithRSA" privateKey documentHash with
  | .error e => .error ("Erro ao assinar documento: " ++ e)
  | .ok signature =>
      match extractPublicKeyFromPrivate rsa privateKey with
      | .error e => .error ("Erro ao assinar documento: " ++ e)
      | .ok publicKey =>
          .ok { success := true
                signature := { digitalSignature := signature
                               documentHash := documentHash
                               algorithm := "sha256WithRSA"
                               timestamp := nowIso
                               signerPublicKey := publicKey }
                documentHash := documentHash }

/-- The `details` object of a verification result; absent JS fields are
`none`. -/
structure VerifyDetails where
  documentIntact : Option Bool
  signatureValid : Option Bool
  originalHash : Option String
  currentHash : Option String
  algorithm : Option String
  timestamp : Option String
  error : Option String
deriving DecidableEq

/-- Structured result of `verifySignature` (no exception escapes: the whole
body is wrapped in try/catch, hence the return type is a plain result, not
`Except`). -/
structure VerifyResult where
  valid : Bool
  reason : Option String
  message : String
  details : VerifyDetails
deriving DecidableEq

/-- `DigitalSignature.verifySignature` (lines 105–184): recompute the
canonical hash and compare first (lines 114–138); only if intact, run the
RSA verification (lines 140–161); a primitive exception is converted into
the `VERIFICATION_ERROR` result by the catch block (lines 174–183). -/
def verifySignature (H : String → String) (rsa : RSAOps) (document : JSDoc)
    (signatureData : SignatureData) : VerifyResult :=
  let documentString := documentToString document
  let currentHash := H documentString
  if currentHash ≠ signatureData.documentHash then
    { valid := false
      reason := some "DOCUMENT_MODIFIED"
      message := "Documento foi modificado após a assinatura"
      details := { documentIntact := some false, signatureValid := none
                   originalHash := some signatureData.documentHash
                   currentHash := some currentHash
                   algorithm := none, timestamp := none, error := none } }
  else
    match rsa.verify signatureData.algorithm signatureData.signerPublicKey
        signatureData.digitalSignature signatureData.documentHash with
    | .error e =>
        { valid := false
          reason := some "VERIFICATION_ERROR"
          message := "Erro na verificação: " ++ e
          details := { documentIntact := none, signatureValid := none
                       originalHash := none, currentHash := none
                       algorithm := none, timestamp := none, error := some e } }
    | .ok false =>
        { valid := false
          reason := some "INVALID_SIGNATURE"
          message := "Assinatura digital inválida"
          details := { documentIntact := some true, signatureValid := some false
                       originalHash := none, currentHash := none
                       algorithm := none, timestamp := none, error := none } }
    | .ok true =>
        { valid := true
          reason := none
          message := "Assinatura digital válida"
          details := { documentIntact := some true, signatureValid := some true
                       originalHash := none, currentHash := none
                       algorithm := some signatureData.algorithm
                       timestamp := some signatureData.timestamp, error := none } }

/-- Functional correctness of the RSA primitive itself (what a real RSA
implementation guarantees for a key pair): a signature produced with a
private key verifies under the derived public key. -/
def RSACorrect (rsa : RSAOps) : Prop :=
  ∀ alg privateKey publicKey msg sig,
    rsa.sign alg privateKey msg = .ok sig →
    rsa.extractPublicKey privateKey = .ok publicKey →
    rsa.verify alg publicKey sig msg = .ok true

/-- What a successful `signDocument` pins down about the envelope. -/
theorem signDocument_ok_spec {H : String → String} {rsa : RSAOps}
    {document : JSDoc} {privateKey nowIso : String} {res : SignResult}
    (hsign : signDocument H rsa document privateKey nowIso = .ok res) :
    res.signature.documentHash = H (documentToString document)
    ∧ res.signature.algorithm = "sha256WithRSA"
    ∧ rsa.sign "sha256WithRSA" privateKey (H (documentToString document))
        = .ok res.signature.digitalSignature
    ∧ rsa.extractPublicKey privateKey = .ok res.signature.signerPublicKey := by
  simp only [signDocument] at hsign
  cases hs : rsa.sign "sha256WithRSA" privateKey (H (documentToString document)) with
  | error e => rw [hs] at hsign; exact absurd hsign (by simp)
  | ok sig =>
      rw [hs] at hsign
      cases he : rsa.extractPublicKey privateKey with
      | error e =>
          rw [show extractPublicKeyFromPrivate rsa privateKey
              = .error ("Erro ao extrair chave pública: " ++ e) by
            unfold extractPublicKeyFromPrivate; rw [he]] at hsign
          exact absurd hsign (by simp)
      | ok pub =>
          rw [show extractPublicKeyFromPrivate rsa privateKey = .ok pub by
            unfold extractPublicKeyFromPrivate; rw [he]] at hsign
          simp only [Except.ok.injEq] at hsign
          rw [← hsign]
          exact ⟨rfl, rfl, rfl, rfl⟩

/-- The DOCUMENT_MODIFIED branch of `verifySignature` (lines 127–138),
taken whenever the recomputed hash differs from the envelope hash. -/
theorem verifySignature_mismatch {H : String → String} {rsa : RSAOps}
    {document : JSDoc} {sd : SignatureData}
    (hmod : H (documentToString document) ≠ sd.documentHash) :
    verifySignature H rsa document sd
      = { valid := false
          reason := some "DOCUMENT_MODIFIED"
          message := "Documento foi modificado após a assinatura"
          details := { documentIntact := some false, signatureValid := none
                       originalHash := some sd.documentHash
                       currentHash := some (H (documentToString document))
                       algorithm := none, timestamp := none, error := none } } := by
  simp only [verifySignature]
  rw [if_pos hmod]

/-! ## Claim theorems: sign/verify round trip and error conversion
(C1, C2, C4) -/

/-- Claim C1: for any document (raw or structured) and a key pair for which
the RSA primitive is functionally correct, verifying the envelope produced
by `signDocument` against the unmodified document yields `valid = true`,
`details.documentIntact = some true` and `details.signatureValid = some
true`. -/
theorem claim_C1_sign_verify_roundtrip (H : String → String) (rsa : RSAOps)
    (hrsa : RSACorrect rsa) (document : JSDoc) (privateKey nowIso : String)
    (res : SignResult)
    (hsign : signDocument H rsa document privateKey nowIso = .ok res) :
    (verifySignature H rsa document res.signature).valid = true
    ∧ (verifySignature H rsa document res.signature).details.documentIntact
        = some true
    ∧ (verifySignature H rsa document res.signature).details.signatureValid
        = some true := by
  obtain ⟨hh, halg, hsig, hpub⟩ := signDocument_ok_spec hsign
  have hv : rsa.verify "sha256WithRSA" res.signature.signerPublicKey
      res.signature.digitalSignature (H (documentToString document)) = .ok true :=
    hrsa _ _ _ _ _ hsig hpub
  simp [verifySignature, halg, hh, hv]

/-- Claim C2: if the document presented at verification hashes differently
from the signed one (any mutation of a signable field, barring an SHA-256
collision), `verifySignature` returns the structured
`valid = false` / `DOCUMENT_MODIFIED` result, and the result is identical
for any two RSA oracles — the hash comparison short-circuits before any
RSA verification is attempted. -/
theorem claim_C2_document_modified_short_circuit (H : String → String)
    (rsa rsa' : RSAOps) (D Dmut : JSDoc) (privateKey nowIso : String)
    (res : SignResult)
    (hsign : signDocument H rsa D privateKey nowIso = .ok res)
    (hmut : H (documentToString Dmut) ≠ H (documentToString D)) :
    verifySignature H rsa Dmut res.signature
      = { valid := false
          reason := some "DOCUMENT_MODIFIED"
          message := "Documento foi modificado após a assinatura"
          details := { documentIntact := some false, signatureValid := none
                       originalHash := some (H (documentToString D))
                       currentHash := some (H (documentToString Dmut))
                       algorithm := none, timestamp := none, error := none } }
    ∧ verifySignature H rsa Dmut res.signature
        = verifySignature H rsa' Dmut res.signature := by
  obtain ⟨hh, _, _, _⟩ := signDocument_ok_spec hsign
  have hmod : H (documentToString Dmut) ≠ res.signature.documentHash := by
    rw [hh]; exact hmut
  constructor
  · rw [verifySignature_mismatch hmod, hh]
  · rw [verifySignature_mismatch hmod, verifySignature_mismatch hmod]

/-- Claim C4: an exception of the cryptographic primitive during
verification (malformed key, undecodable signature, unknown algorithm) is
converted by the catch block into the structured
`valid = false` / `VERIFICATION_ERROR` result carrying the message — the
embedding's total return type `VerifyResult` (rather than `Except`)
captures that no exception propagates to the caller.  The
hash-equality hypothesis states that the exception is actually reached:
on a hash mismatch the cryptography is never attempted (claim C2). -/
theorem claim_C4_verification_error_conversion (H : String → String)
    (rsa : RSAOps) (document : JSDoc) (sd : SignatureData) (e : String)
    (hintact : H (documentToString document) = sd.documentHash)
    (herr : rsa.verify sd.algorithm sd.signerPublicKey sd.digitalSignature
        sd.documentHash = .error e) :
    verifySignature H rsa document sd
      = { valid := false
          reason := some "VERIFICATION_ERROR"
          message := "Erro na verificação: " ++ e
          details := { documentIntact := none, signatureValid := none
                       originalHash := none, currentHash := none
                       algorithm := none, timestamp := none, error := some e } } := by
  simp [verifySignature, hintact, herr]

/-! ## Concrete crypto stand-ins used by the witnesses -/

/-- A toy hash for witnesses. -/
def wHash (s : String) : String := "h:" ++ s

/-- A toy RSA implementation satisfying `RSACorrect`: the public key equals
the private key and a signature is the keyed message. -/
def wRSA : RSAOps where
  sign := fun _alg privateKey msg => .ok (privateKey ++ ":" ++ msg)
  extractPublicKey := fun privateKey => .ok privateKey
  verify := fun _alg publicKey sig msg => .ok (decide (sig = publicKey ++ ":" ++ msg))

theorem wRSA_correct : RSACorrect wRSA := by
  intro alg priv pub msg sig hs he
  simp only [wRSA, Except.ok.injEq] at hs he
  subst hs
  subst he
  simp [wRSA]

/-- A toy RSA implementation whose verification always throws. -/
def wBadRSA : RSAOps where
  sign := fun _alg privateKey msg => .ok (privateKey ++ ":" ++ msg)
  extractPublicKey := fun privateKey => .ok privateKey
  verify := fun _alg _publicKey _sig _msg => .error "bad key"

/-- The raw document, mutated document and envelope used by witnesses. -/
def wDoc : JSDoc := .raw "doc"

def wDocMut : JSDoc := .raw "doc2"

def wRes : SignResult :=
  { success := true
    signature := { digitalSignature := "priv:h:doc", documentHash := "h:doc"
                   algorithm := "sha256WithRSA", timestamp := "T"
                   signerPublicKey := "priv" }
    documentHash := "h:doc" }

/-- Witness for C1 at concrete inputs. -/
theorem claim_C1_witness :
    (verifySignature wHash wRSA wDoc wRes.signature).valid = true
    ∧ (verifySignature wHash wRSA wDoc wRes.signature).details.documentIntact
        = some true
    ∧ (verifySignature wHash wRSA wDoc wRes.signature).details.signatureValid
        = some true :=
  claim_C1_sign_verify_roundtrip wHash wRSA wRSA_correct wDoc "priv" "T" wRes
    rfl

/-- Witness for C2 at concrete inputs (the second oracle always throws, yet
the result is the same DOCUMENT_MODIFIED value). -/
theorem claim_C2_witness :
    verifySignature wHash wRSA wDocMut wRes.signature
      = { valid := false
          reason := some "DOCUMENT_MODIFIED"
          message := "Documento foi modificado após a assinatura"
          details := { documentIntact := some false, signatureValid := none
                       originalHash := some (wHash (documentToString wDoc))
                       currentHash := some (wHash (documentToString wDocMut))
                       algorithm := none, timestamp := none, error := none } }
    ∧ verifySignature wHash wRSA wDocMut wRes.signature
        = verifySignature wHash wBadRSA wDocMut wRes.signature :=
  claim_C2_document_modified_short_circuit wHash wRSA wBadRSA wDoc wDocMut
    "priv" "T" wRes rfl (by decide)

/-- Witness for C4 at concrete inputs: the oracle throws, the result is the
structured VERIFICATION_ERROR value. -/
theorem claim_C4_witness :
    verifySignature wHash wBadRSA wDoc wRes.signature
      = { valid := false
          reason := some "VERIFICATION_ERROR"
          message := "Erro na verificação: bad key"
          details := { documentIntact := none, signatureValid := none
                       originalHash := none, currentHash := none
                       algorithm := none, timestamp := none
                       error := some "bad key" } } :=
  claim_C4_verification_error_conversion wHash wBadRSA wDoc wRes.signature
    "bad key" (by decide) rfl

/-! ## `generateTimestamp` / `verifyTimestamp` (digitalSignature.js 224–267)

The token is `Buffer.from(JSON.stringify({timestamp, hash, tsa:
'internal-tsa'})).toString('base64')`; verification base64-decodes and
JSON-parses it, recomputes `sha256(data + timestamp)` and compares with
the embedded hash, returning `false` on any parse exception.  The
base64+JSON transport is modelled as an explicit codec; its round-trip
property on the tokens at hand is an explicit hypothesis of the claim
theorem. -/

/-- The payload carried by a timestamp token. -/
structure TsToken where
  timestamp : String
  hash : String
  tsa : String
deriving DecidableEq

/-- The base64+JSON transport of timestamp tokens; `dec` errors model
`JSON.parse`/`Buffer` exceptions. -/
structure TokenCodec where
  enc : TsToken → String
  dec : String → Except String TsToken

/-- Return value of `generateTimestamp` (lines 233–240). -/
structure TimestampResult where
  timestamp : String
  token : String

/-- `DigitalSignature.generateTimestamp` (lines 224–244). -/
def generateTimestamp (codec : TokenCodec) (H : String → String)
    (nowIso : String) (data : String) : TimestampResult :=
  let hash := H (data ++ nowIso)
  { timestamp := nowIso
    token := codec.enc { timestamp := nowIso, hash := hash, tsa := "internal-tsa" } }

/-- `DigitalSignature.verifyTimestamp` (lines 252–267): decode the token,
recompute the hash from the supplied data and the embedded timestamp,
compare with the embedded hash; any exception yields `false`. -/
def verifyTimestamp (codec : TokenCodec) (H : String → String)
    (token data : String) : Bool :=
  match codec.dec token with
  | .error _ => false
  | .ok td => decide (H (data ++ td.timestamp) = td.hash)

/-! ## Claim theorem: timestamp round trip and corruption (C8) -/

/-- Claim C8: a freshly generated timestamp token verifies against its data
(first conjunct), and a token whose embedded hash is replaced by any value
different from `H(data ++ timestamp)` fails verification (second
conjunct).  The two codec hypotheses say that the base64+JSON transport
round-trips on the two tokens involved. -/
theorem claim_C8_timestamp_roundtrip (codec : TokenCodec)
    (H : String → String) (nowIso data hBad : String)
    (hrt : codec.dec (codec.enc
        { timestamp := nowIso, hash := H (data ++ nowIso), tsa := "internal-tsa" })
      = .ok { timestamp := nowIso, hash := H (data ++ nowIso), tsa := "internal-tsa" })
    (hrtBad : codec.dec (codec.enc
        { timestamp := nowIso, hash := hBad, tsa := "internal-tsa" })
      = .ok { timestamp := nowIso, hash := hBad, tsa := "internal-tsa" })
    (hne : hBad ≠ H (data ++ nowIso)) :
    verifyTimestamp codec H (generateTimestamp codec H nowIso data).token data
      = true
    ∧ verifyTimestamp codec H
        (codec.enc { timestamp := nowIso, hash := hBad, tsa := "internal-tsa" })
        data = false := by
  constructor
  · simp [verifyTimestamp, generateTimestamp, hrt]
  · simp only [verifyTimestamp, hrtBad]
    exact decide_eq_false (fun he => hne he.symm)

/-- A concrete codec for the C8 witness: the two tokens that appear are
encoded by field concatenation and decoded by direct comparison. -/
def wCodec : TokenCodec where
  enc := fun t => t.timestamp ++ "|" ++ t.hash ++ "|" ++ t.tsa
  dec := fun s =>
    if s = "T|h:dT|internal-tsa" then
      .ok { timestamp := "T", hash := "h:dT", tsa := "internal-tsa" }
    else if s = "T|bad|internal-tsa" then
      .ok { timestamp := "T", hash := "bad", tsa := "internal-tsa" }
    else .error "parse"

/-- Witness for C8 at concrete inputs. -/
theorem claim_C8_witness :
    verifyTimestamp wCodec wHash (generateTimestamp wCodec wHash "T" "d").token "d"
      = true
    ∧ verifyTimestamp wCodec wHash
        (wCodec.enc { timestamp := "T", hash := "bad", tsa := "internal-tsa" }) "d"
      = false :=
  claim_C8_timestamp_roundtrip wCodec wHash "T" "d" "bad"
    rfl rfl (by decide)

/-! ## The mongoose `Signature` model (src/unnamed/part_001) and the
`Expense` fields it hashes (src/unnamed/part_000)

`verify` / `revoke` mutate the document and call `save()`; the
`pre('save')` middleware appends an audit-trail entry when `status` was
modified on a persisted document.  We model a record as a value, a method
as a state-transforming function, and `save()` as `saveWithAudit`.  The
crypto block of `verify` (createPublicKey / createVerify / verify.verify,
lines 330–343) and the `Expense.findById` fetch (lines 346–347, whose
failure or `null` result makes `calculateDocumentHash` throw) are explicit
`Except`-valued parameters feeding the method's try/catch. -/

/-- The receipt fields selected by `calculateDocumentHash` (lines 444–448). -/
structure Receipt where
  filename : String
  size : Int
  mimetype : String
deriving DecidableEq

/-- The expense fields consumed by `calculateDocumentHash` (lines 436–449). -/
structure Expense where
  title : String
  description : String
  amount : Int
  currency : String
  category : String
  expenseDate : String
  employee : String
  receipts : List Receipt
deriving DecidableEq

/-- The receipts array as mapped at lines 444–448. -/
def receiptsToJSArr : List Receipt → JSArr
  | [] => .nil
  | r :: rest =>
      .cons (.obj (.cons "filename" (.str r.filename)
                    (.cons "size" (.num r.size)
                      (.cons "mimetype" (.str r.mimetype) .nil))))
        (receiptsToJSArr rest)

/-- The `documentData` object built by `calculateDocumentHash`
(lines 436–449), fields in source insertion order. -/
def expenseDocumentData (doc : Expense) : JSFields :=
  .cons "title" (.str doc.title)
    (.cons "description" (.str doc.description)
      (.cons "amount" (.num doc.amount)
        (.cons "currency" (.str doc.currency)
          (.cons "category" (.str doc.category)
            (.cons "expenseDate" (.str doc.expenseDate)
              (.cons "employee" (.str doc.employee)
                (.cons "receipts" (.arr (receiptsToJSArr doc.receipts)) .nil)))))))

/-- `signatureSchema.methods.calculateDocumentHash` (lines 432–453):
`JSON.stringify(documentData, Object.keys(documentData).sort())`, then the
SHA-256 hex digest `H`. -/
def calculateDocumentHash (H : String → String) (doc : Expense) : String :=
  let m := expenseDocumentData doc
  H (serializeJSON (sortStrings (jsKeys m)) (.obj m))

/-- The certificate subdocument; only `validTo` is consumed by `verify`
(dates as integer milliseconds). -/
structure CertificateInfo where
  validTo : Int
deriving DecidableEq

/-- An entry of the `verifications` array (lines 120–147). -/
structure Verification where
  verifiedBy : String
  result : String
  method : String
  signatureValid : Bool
  certificateValid : Bool
  timestampValid : Bool
  documentIntact : Bool
  errors : List String
deriving DecidableEq

/-- An entry of the `auditTrail` array (lines 200–217); fields the code may
leave unset are `Option`. -/
structure AuditEntry where
  action : String
  performedBy : Option String
  reason : Option String
  details : Option String
deriving DecidableEq

/-- The `revocation` subdocument (lines 220–231). -/
structure Revocation where
  revokedAt : Int
  revokedBy : String
  reason : String
  details : String
deriving DecidableEq

/-- The fields of a `Signature` document consumed by the lifecycle methods. -/
structure SignatureRecord where
  digitalSignature : String
  documentHash : String
  algorithm : String
  publicKey : String
  certificate : Option CertificateInfo
  timestampToken : Option String
  status : String
  verifications : List Verification
  auditTrail : List AuditEntry
  revocation : Option Revocation
deriving DecidableEq

/-- JavaScript truthiness of an optional string (`null`/`undefined` and
`""` are falsy). -/
def strTruthy : Option String → Bool
  | none => false
  | some s => decide (s ≠ "")

/-- `signatureSchema.methods.verifyTimestamp` (lines 456–469):
`if (!this.timestampToken) return true;` then
`return this.timestampToken.length > 0`. -/
def SignatureRecord.verifyTimestamp (rec : SignatureRecord) : Bool :=
  match rec.timestampToken with
  | none => true
  | some t => if t = "" then true else decide (t.length > 0)

/-- The certificate check of `verify` (lines 352–355): valid when no
certificate is present, else `certificate.validTo > now`. -/
def certificateValidAt (rec : SignatureRecord) (now : Int) : Bool :=
  match rec.certificate with
  | none => true
  | some c => decide (c.validTo > now)

/-- The timestamp check of `verify` (lines 357–362): `true` unless a truthy
token is present, in which case `verifyTimestamp()` decides. -/
def timestampCheckOf (rec : SignatureRecord) : Bool :=
  if strTruthy rec.timestampToken then rec.verifyTimestamp else true

/-- The action chosen by the `pre('save')` middleware (lines 311–313). -/
def auditActionFor (status : String) : String :=
  if status = "valid" then "verified"
  else if status = "invalid" then "invalidated"
  else if status = "revoked" then "revoked"
  else "created"

/-- `save()` through the `pre('save')` middleware (lines 309–323): when the
status differs from its last persisted value (mongoose `isModified` on a
non-new document), push an audit entry built from the side-channel fields
`_performedBy` / `_actionReason` / `_actionDetails`. -/
def saveWithAudit (prevStatus : String) (performedBy reason details : Option String)
    (rec : SignatureRecord) : SignatureRecord :=
  if rec.status ≠ prevStatus then
    { rec with auditTrail := rec.auditTrail ++
        [({ action := auditActionFor rec.status, performedBy := performedBy,
            reason := reason, details := details } : AuditEntry)] }
  else rec

/-- The catch branch of `verify` (lines 390–412): record an all-false
verification carrying the error message, set status to `invalid`
unconditionally, save. -/
def verifyCatch (rec : SignatureRecord) (verifiedBy method msg : String) :
    SignatureRecord × Bool :=
  let rec1 := { rec with verifications := rec.verifications ++
      [({ verifiedBy := verifiedBy, result := "invalid", method := method,
          signatureValid := false, certificateValid := false,
          timestampValid := false, documentIntact := false,
          errors := [msg] } : Verification)] }
  let rec2 := { rec1 with status := "invalid" }
  (saveWithAudit rec.status (some verifiedBy)
    (some "Erro na verificação da assinatura") (some msg) rec2, false)

/-- `signatureSchema.methods.verify` (lines 326–413).  `cryptoVerify` is
the outcome of the crypto block on the record's
`algorithm.replace('with','')`, `publicKey`, `digitalSignature` and
`documentHash`; `fetched` is the `Expense.findById` outcome (an error also
models the `null`-document crash inside `calculateDocumentHash`). -/
def SignatureRecord.verify
    (cryptoVerify : String → String → String → String → Except String Bool)
    (fetched : Except String Expense) (H : String → String) (now : Int)
    (rec : SignatureRecord) (verifiedBy : String) (method : String) :
    SignatureRecord × Bool :=
  match cryptoVerify (rec.algorithm.replace "with" "") rec.publicKey
      rec.digitalSignature rec.documentHash with
  | .error msg => verifyCatch rec verifiedBy method msg
  | .ok isSignatureValid =>
      match fetched with
      | .error msg => verifyCatch rec verifiedBy method msg
      | .ok document =>
          let currentDocumentHash := calculateDocumentHash H document
          let isDocumentIntact := decide (currentDocumentHash = rec.documentHash)
          let isCertificateValid := certificateValidAt rec now
          let isTimestampValid := timestampCheckOf rec
          let isValid := isSignatureValid && isDocumentIntact
            && isCertificateValid && isTimestampValid
          let rec1 := { rec with verifications := rec.verifications ++
              [({ verifiedBy := verifiedBy,
                  result := if isValid then "valid" else "invalid",
                  method := method,
                  signatureValid := isSignatureValid,
                  certificateValid := isCertificateValid,
                  timestampValid := isTimestampValid,
                  documentIntact := isDocumentIntact,
                  errors := [] } : Verification)] }
          if rec1.status = "pending_verification" then
            let rec2 := { rec1 with status := if isValid then "valid" else "invalid" }
            (saveWithAudit rec.status (some verifiedBy)
              (some "Verificação automática da assinatura") none rec2, isValid)
          else
            (saveWithAudit rec.status none none none rec1, isValid)

/-- `signatureSchema.methods.revoke` (lines 416–429): unconditionally set
status `revoked`, record revocation metadata, save. -/
def SignatureRecord.revoke (now : Int) (rec : SignatureRecord)
    (revokedBy reason details : String) : SignatureRecord :=
  let rec1 := { rec with
    status := "revoked",
    revocation := some ⟨now, revokedBy, reason, details⟩ }
  saveWithAudit rec.status (some revokedBy) (some reason) (some details) rec1

/-! ## Claim theorems: the SignatureRecord lifecycle (C5, C3, C9) -/

/-- Claim C5: on the non-exception path, `verify` computes the four
booleans (`signatureValid` from the crypto block, `documentIntact` by
hash comparison, `certificateValid` — `validTo > now`, defaulting to valid
with no certificate (third conjunct) — and `timestampValid`), returns
their conjunction, appends a Verification entry recording all four, and,
when the prior status was `pending_verification`, transitions to
`valid`/`invalid` according to the conjunction and appends the
corresponding AuditEntry via the save middleware. -/
theorem claim_C5_verify_protocol
    (cryptoVerify : String → String → String → String → Except String Bool)
    (fetched : Except String Expense) (H : String → String) (now : Int)
    (rec : SignatureRecord) (verifiedBy method : String)
    (sv intact isValid : Bool) (doc : Expense)
    (hcv : cryptoVerify (rec.algorithm.replace "with" "") rec.publicKey
        rec.digitalSignature rec.documentHash = .ok sv)
    (hfd : fetched = .ok doc)
    (hintact : intact = decide (calculateDocumentHash H doc = rec.documentHash))
    (hiv : isValid = (sv && intact && certificateValidAt rec now
        && timestampCheckOf rec)) :
    (SignatureRecord.verify cryptoVerify fetched H now rec verifiedBy method).2
        = isValid
    ∧ (SignatureRecord.verify cryptoVerify fetched H now rec verifiedBy
          method).1.verifications
        = rec.verifications ++
          [({ verifiedBy := verifiedBy,
              result := if isValid then "valid" else "invalid",
              method := method, signatureValid := sv,
              certificateValid := certificateValidAt rec now,
              timestampValid := timestampCheckOf rec,
              documentIntact := intact, errors := [] } : Verification)]
    ∧ (rec.certificate = none → certificateValidAt rec now = true)
    ∧ (rec.status = "pending_verification" →
        (SignatureRecord.verify cryptoVerify fetched H now rec verifiedBy
            method).1.status = (if isValid then "valid" else "invalid")
        ∧ (SignatureRecord.verify cryptoVerify fetched H now rec verifiedBy
              method).1.auditTrail
            = rec.auditTrail ++
              [({ action := if isValid then "verified" else "invalidated",
                  performedBy := some verifiedBy,
                  reason := some "Verificação automática da assinatura",
                  details := none } : AuditEntry)]) := by
  subst hfd
  have hcert : rec.certificate = none → certificateValidAt rec now = true := by
    intro hc
    simp [certificateValidAt, hc]
  refine ⟨?_, ?_, hcert, ?_⟩
  · simp only [SignatureRecord.verify, hcv]
    rw [← hintact, ← hiv]
    cases isValid <;> by_cases hst : rec.status = "pending_verification" <;>
      simp [saveWithAudit, auditActionFor, hst]
  · simp only [SignatureRecord.verify, hcv]
    rw [← hintact, ← hiv]
    cases isValid <;> by_cases hst : rec.status = "pending_verification" <;>
      simp [saveWithAudit, auditActionFor, hst]
  · intro hst
    simp only [SignatureRecord.verify, hcv]
    rw [← hintact, ← hiv]
    cases isValid <;> simp [saveWithAudit, auditActionFor, hst]

/-- The expense document used by the record witnesses. -/
def wExpense : Expense :=
  { title := "Flight", description := "d", amount := 120, currency := "BRL",
    category := "travel", expenseDate := "2024-01-01", employee := "emp1",
    receipts := [{ filename := "r.pdf", size := 100,
                   mimetype := "application/pdf" }] }

/-- A persisted record whose stored hash matches `wExpense`. -/
def wBaseRec : SignatureRecord :=
  { digitalSignature := "sig",
    documentHash := calculateDocumentHash wHash wExpense,
    algorithm := "SHA256withRSA", publicKey := "pub", certificate := none,
    timestampToken := none, status := "valid", verifications := [],
    auditTrail := [], revocation := none }

def wPendingRec : SignatureRecord := { wBaseRec with status := "pending_verification" }

/-- Witness for C5: a pending record with matching hash and succeeding
crypto transitions to `valid` and returns `true`. -/
theorem claim_C5_witness :
    (SignatureRecord.verify (fun _ _ _ _ => .ok true) (.ok wExpense) wHash 0
        wPendingRec "u1" "automatic").2 = true
    ∧ (SignatureRecord.verify (fun _ _ _ _ => .ok true) (.ok wExpense) wHash 0
        wPendingRec "u1" "automatic").1.status = "valid" := by
  have h := claim_C5_verify_protocol (fun _ _ _ _ => .ok true) (.ok wExpense)
    wHash 0 wPendingRec "u1" "automatic" true true true wExpense
    rfl rfl (by decide) (by decide)
  exact ⟨h.1, ((h.2.2.2 rfl).1).trans rfl⟩

/-- Claim C3 (the code violates it): the catch branch of `verify` (lines
404–410) sets `this.status = 'invalid'` unconditionally, so a record that
is already `revoked` and whose verification throws (e.g. its stored public
key is malformed) leaves `verify` with status `invalid` — revocation is
not absorbing on the exception path, contradicting the claim and spec
section 4.4 (`Terminal — no subsequent call may change status away from
revoked`). -/
def wRevokedRec : SignatureRecord :=
  SignatureRecord.revoke 5 wBaseRec "admin" "key_compromise" "leak"

theorem claim_C3_catch_resurrects_revoked :
    wRevokedRec.status = "revoked"
    ∧ (SignatureRecord.verify (fun _ _ _ _ => .error "bad public key")
        (.ok wExpense) wHash 0 wRevokedRec "u2" "automatic").1.status
      = "invalid" :=
  ⟨rfl, rfl⟩

/-- A nonempty string has positive length. -/
theorem length_pos_of_ne_empty {t : String} (h : t ≠ "") : 0 < t.length := by
  cases t with
  | mk data =>
      cases data with
      | nil => exact absurd rfl h
      | cons c cs => simp [String.length]

/-- Claim C9, amended: the model's `verifyTimestamp` returns `true` for
EVERY record with a non-null `timestampToken` — the empty string passes
the initial JavaScript-falsiness presence check (`!this.timestampToken`)
exactly like `null`, and any non-empty token trivially satisfies
`length > 0`; no recomputation or comparison of the token's contents is
performed (the method reads no other data).  The original claim's `true
exactly when length > 0` fails at the empty string. -/
theorem claim_C9_timestamp_check_trivial (rec : SignatureRecord) (t : String)
    (h : rec.timestampToken = some t) : rec.verifyTimestamp = true := by
  unfold SignatureRecord.verifyTimestamp
  rw [h]
  by_cases ht : t = ""
  · simp [ht]
  · simp [ht]
    exact length_pos_of_ne_empty ht

def wEmptyTokenRec : SignatureRecord := { wBaseRec with timestampToken := some "" }

/-- Counterexample to C9 as stated: for the non-null empty token the
method returns `true` although the token's length is not positive. -/
theorem claim_C9_counterexample :
    wEmptyTokenRec.timestampToken = some ""
    ∧ wEmptyTokenRec.verifyTimestamp = true
    ∧ ¬ 0 < ("" : String).length :=
  ⟨rfl, rfl, by decide⟩

def wTokenRec : SignatureRecord := { wBaseRec with timestampToken := some "tok" }

/-- Witness for the amended C9 at a concrete record. -/
theorem claim_C9_witness : wTokenRec.verifyTimestamp = true :=
  claim_C9_timestamp_check_trivial wTokenRec "tok" rfl
